import Mathlib

/-!
Verification of the Raspberry Pi voice-assistant repository.

Shallow embedding of:
- `src/audio/input_handler.py` — voice-activity detection and speech segmentation
  (`AudioInputHandler._is_speech`, `capture_speech`);
- `src/utils/laptop_client.py` — `send_laptop_task`, `download_screenshot`;
- `src/utils/intent_classifier.py` — `classify_intent`, `is_laptop_action`.

Machine integers are modelled as `Int` with explicit wrap-around where numpy's
fixed-width arithmetic wraps; times and thresholds (Python floats compared with
`<=`) are modelled as `Rat`; byte strings as `List Nat`; Python exceptions as
`Except`.
-/

namespace PiAssistant

/-! ### Audio segmenter (`src/audio/input_handler.py`) -/

/-- Configuration fields of `AudioInputHandler` used by `capture_speech`:
`silence_duration` (seconds of silence before processing) and
`min_speech_duration` (minimum speech duration to process). -/
structure VADConfig where
  silence_duration : ℚ
  min_speech_duration : ℚ

/-- The VAD state of `AudioInputHandler`: `self.speech_buffer` (a list of raw
byte chunks), `self.last_speech_time` and `self.speech_start_time`
(both initialised to `None`). -/
structure VADState where
  speech_buffer : List (List ℕ)
  last_speech_time : Option ℚ
  speech_start_time : Option ℚ

/-- The state set up by `AudioInputHandler.__init__`:
`speech_buffer = []`, `last_speech_time = None`, `speech_start_time = None`. -/
def initVADState : VADState := ⟨[], none, none⟩

/-- One call of `AudioInputHandler.capture_speech`, as a pure transition.
Inputs: the `is_listening` flag, the speech classifier (the code calls
`self._is_speech` on the decoded chunk), the configuration, `current_time`
(`time.time()`), and the chunk returned by `read_chunk` (`none` on a failed
read). Output: the successor state and the returned value (`some` joined
buffer when a speech segment is emitted, `none` otherwise).

The branch where `speech_start_time` is set but `last_speech_time` is not is
unreachable from `initVADState` (the code sets `last_speech_time` whenever it
sets `speech_start_time`); there the Python expression
`current_time - self.last_speech_time` would fail, so the call completes in no
state change only in the model, and no claim depends on that branch. -/
def capture_speech (is_listening : Bool) (isSpeech : List ℕ → Bool)
    (cfg : VADConfig) (current_time : ℚ) (chunk : Option (List ℕ))
    (st : VADState) : VADState × Option (List ℕ) :=
  if is_listening = false then (st, none)
  else
    match chunk with
    | none => (st, none)
    | some c =>
      if isSpeech c then
        let st1 :=
          match st.speech_start_time with
          | none => { st with speech_start_time := some current_time, speech_buffer := [] }
          | some _ => st
        ({ st1 with speech_buffer := st1.speech_buffer ++ [c],
                    last_speech_time := some current_time }, none)
      else
        match st.speech_start_time, st.last_speech_time with
        | some start_t, some last_t =>
          if cfg.silence_duration ≤ current_time - last_t then
            if cfg.min_speech_duration ≤ last_t - start_t then
              ({ st with speech_buffer := [], speech_start_time := none },
               some st.speech_buffer.flatten)
            else
              ({ st with speech_buffer := [], speech_start_time := none }, none)
          else (st, none)
        | some _, none => (st, none)
        | none, _ => (st, none)

/-- The segmenter invariant: the speech buffer is non-empty exactly when an
utterance is in progress (`speech_start_time` is set). -/
def BufferStartInv (st : VADState) : Prop :=
  st.speech_buffer ≠ [] ↔ st.speech_start_time.isSome = true

/-- C8: The segmenter state satisfies, initially and after every completed
call to `capture_speech` (any listening flag, any classifier, any time, any
chunk including a failed read), the invariant: the speech buffer is non-empty
iff `speech_start_time` is set. -/
theorem capture_speech_buffer_start_invariant :
    BufferStartInv initVADState ∧
    ∀ (is_listening : Bool) (isSpeech : List ℕ → Bool) (cfg : VADConfig)
      (t : ℚ) (chunk : Option (List ℕ)) (st : VADState),
      BufferStartInv st →
      BufferStartInv (capture_speech is_listening isSpeech cfg t chunk st).1 := by
  constructor
  · simp [BufferStartInv, initVADState]
  · intro is_listening isSpeech cfg t chunk st hst
    unfold capture_speech
    rcases is_listening with _ | _
    · simpa using hst
    · simp only [BufferStartInv] at hst ⊢
      rcases chunk with _ | c

      · simpa using hst
      · simp only []
        by_cases hsp : isSpeech c
        · simp only [hsp, if_true]
          rcases h : st.speech_start_time with _ | s
          · simp
          · simp only []
            constructor
            · intro; simp [h]
            · intro; intro hc
              exact absurd hc (List.append_ne_nil_of_right_ne_nil _ (by simp))
        · simp only [hsp, if_false, Bool.false_eq_true]
          rcases h1 : st.speech_start_time with _ | s
          · simpa [h1] using hst
          · rcases h2 : st.last_speech_time with _ | l
            · simpa [h1] using hst
            · by_cases hsil : cfg.silence_duration ≤ t - l
              · by_cases hmin : cfg.min_speech_duration ≤ l - s
                · simp [hsil, hmin]
                · simp [hsil, hmin]
              · simpa [hsil, h1] using hst

/-- C1: On a call that processes a chunk while an utterance is in progress
(`speech_start_time = some s`, and `last_speech_time = some l` as the code
relies on): a silence frame with `current_time - l ≥ silence_duration` and
`l - s ≥ min_speech_duration` returns exactly the concatenation of the
buffered frames and clears the buffer and start time; a silence frame past
the silence gap but with speech duration below `min_speech_duration` clears
the state and returns nothing; a silence frame within the gap leaves the state
unchanged and returns nothing; a speech frame returns nothing (it only
appends); and a silence or speech frame while idle (start time `none`)
returns nothing. -/
theorem capture_speech_silence_emission (isSpeech : List ℕ → Bool)
    (cfg : VADConfig) (current_time s l : ℚ) (c : List ℕ) (st : VADState)
    (hstart : st.speech_start_time = some s)
    (hlast : st.last_speech_time = some l) :
    ((capture_speech true isSpeech cfg current_time (some c) st).2
      = if isSpeech c = false ∧ cfg.silence_duration ≤ current_time - l ∧
           cfg.min_speech_duration ≤ l - s
        then some st.speech_buffer.flatten else none)
    ∧ ((capture_speech true isSpeech cfg current_time (some c) st).1.speech_buffer
      = if isSpeech c then st.speech_buffer ++ [c]
        else if cfg.silence_duration ≤ current_time - l then []
        else st.speech_buffer)
    ∧ ((capture_speech true isSpeech cfg current_time (some c) st).1.speech_start_time
      = if isSpeech c then some s
        else if cfg.silence_duration ≤ current_time - l then none
        else some s)
    ∧ ((capture_speech true isSpeech cfg current_time (some c)
          { st with speech_start_time := none }).2 = none) := by
  unfold capture_speech
  by_cases hsp : isSpeech c
  · simp [hsp, hstart]
  · by_cases hsil : cfg.silence_duration ≤ current_time - l
    · by_cases hmin : cfg.min_speech_duration ≤ l - s
      · simp [hsp, hstart, hlast, hsil, hmin]
      · simp [hsp, hstart, hlast, hsil, hmin]
    · simp [hsp, hstart, hlast, hsil]

/-- Witness for C1: a silence frame after a long-enough gap and long-enough
speech emits the concatenated buffer. -/
theorem capture_speech_silence_emission_witness :
    (capture_speech true (fun f => f.any (· ≠ 0)) ⟨3/2, 1/2⟩ 7 (some [0, 0])
        ⟨[[1, 2], [3]], some 5, some 4⟩).2 = some [1, 2, 3] := by
  have h := capture_speech_silence_emission (fun f => f.any (· ≠ 0)) ⟨3/2, 1/2⟩
      7 4 5 [0, 0] ⟨[[1, 2], [3]], some 5, some 4⟩ rfl rfl
  rw [h.1, if_pos]
  · rfl
  · exact ⟨by decide, by norm_num, by norm_num⟩

/-- Witness for C8 at a concrete state and input. -/
theorem capture_speech_buffer_start_invariant_witness :
    BufferStartInv
      (capture_speech true (fun f => f.any (· ≠ 0)) ⟨3/2, 1/2⟩ 10 (some [0, 0])
        ⟨[[1, 2]], some 5, some 4⟩).1 := by
  refine capture_speech_buffer_start_invariant.2 true _ _ 10 (some [0, 0])
    ⟨[[1, 2]], some 5, some 4⟩ ?_
  simp [BufferStartInv]

/-- Repeated calls to `capture_speech` over a list of `(current_time, chunk)`
inputs, collecting the emitted utterances in order. -/
def runCapture (isSpeech : List ℕ → Bool) (cfg : VADConfig)
    (inputs : List (ℚ × Option (List ℕ))) (st : VADState) :
    VADState × List (List ℕ) :=
  match inputs with
  | [] => (st, [])
  | (t, ch) :: rest =>
    let step := capture_speech true isSpeech cfg t ch st
    let r := runCapture isSpeech cfg rest step.1
    (r.1, step.2.toList ++ r.2)

/-- The chunks of an input trace that the classifier marks as speech, in
arrival order. -/
def speechChunks (isSpeech : List ℕ → Bool)
    (inputs : List (ℚ × Option (List ℕ))) : List (List ℕ) :=
  (inputs.filterMap (·.2)).filter isSpeech

theorem speechChunks_cons (isSpeech : List ℕ → Bool) (t : ℚ)
    (ch : Option (List ℕ)) (rest : List (ℚ × Option (List ℕ))) :
    speechChunks isSpeech ((t, ch) :: rest)
      = ch.toList.filter isSpeech ++ speechChunks isSpeech rest := by
  rcases ch with _ | c
  · simp [speechChunks, List.filterMap_cons]
  · by_cases hc : isSpeech c <;>
      simp [speechChunks, List.filterMap_cons, List.filter_cons, hc]

/-- One step of `capture_speech` only ever extends the buffer by the current
chunk when it is classified as speech: the new buffer is a sublist of the old
buffer followed by the speech-filtered chunk. -/
theorem capture_speech_buffer_sublist (b : Bool) (isSpeech : List ℕ → Bool)
    (cfg : VADConfig) (t : ℚ) (ch : Option (List ℕ)) (st : VADState) :
    (capture_speech b isSpeech cfg t ch st).1.speech_buffer.Sublist
      (st.speech_buffer ++ ch.toList.filter isSpeech) := by
  unfold capture_speech
  rcases b with _ | _
  · simp
  · rcases ch with _ | c
    · simp
    · by_cases hsp : isSpeech c
      · rcases h : st.speech_start_time with _ | s
        · simp only [hsp, if_true, h, Option.toList_some, List.filter_cons,
            List.filter_nil]
          exact (List.nil_sublist _).append (by simp)
        · simp only [hsp, if_true, h, Option.toList_some, List.filter_cons,
            List.filter_nil]
          exact (List.Sublist.refl _).append (by simp)
      · have hfil : (c :: List.nil).filter isSpeech = [] := by simp [hsp]
        simp only [hsp, if_false, Option.toList_some, hfil, List.append_nil,
          Bool.false_eq_true]
        rcases h1 : st.speech_start_time with _ | s
        · simp
        · rcases h2 : st.last_speech_time with _ | l
          · simp
          · by_cases hsil : cfg.silence_duration ≤ t - l
            · by_cases hmin : cfg.min_speech_duration ≤ l - s
              · simp [hsil, hmin]
              · simp [hsil, hmin]
            · simp [hsil]

/-- Whenever one step of `capture_speech` emits an utterance, that utterance
is the concatenation of the buffer held before the step. -/
theorem capture_speech_out_flatten (b : Bool) (isSpeech : List ℕ → Bool)
    (cfg : VADConfig) (t : ℚ) (ch : Option (List ℕ)) (st : VADState) :
    ∀ u ∈ (capture_speech b isSpeech cfg t ch st).2.toList,
      u = st.speech_buffer.flatten := by
  unfold capture_speech
  rcases b with _ | _
  · simp
  · rcases ch with _ | c
    · simp
    · by_cases hsp : isSpeech c
      · simp [hsp]
      · simp only [hsp, if_false, Bool.false_eq_true]
        rcases h1 : st.speech_start_time with _ | s
        · simp
        · rcases h2 : st.last_speech_time with _ | l
          · simp
          · by_cases hsil : cfg.silence_duration ≤ t - l
            · by_cases hmin : cfg.min_speech_duration ≤ l - s
              · simp [hsil, hmin]
              · simp [hsil, hmin]
            · simp [hsil]

theorem flatten_length_const {L : List (List ℕ)} {n : ℕ}
    (h : ∀ f ∈ L, f.length = n) : L.flatten.length = L.length * n := by
  induction L with
  | nil => simp
  | cons a L ih =>
    have ha : a.length = n := h a (by simp)
    have ihL : L.flatten.length = L.length * n :=
      ih (fun f hf => h f (by simp [hf]))
    simp only [List.flatten_cons, List.length_append, List.length_cons, ha, ihL]
    ring

/-- Inductive trace invariant behind C6: starting from a buffer whose frames
are all speech-classified of uniform length `n`, every frame appended along
the run is speech-classified of length `n`, the final buffer is an
order-preserving sublist of the starting buffer followed by the trace's
speech chunks, and every emitted utterance is the concatenation of such a
sublist. -/
theorem runCapture_spec (isSpeech : List ℕ → Bool) (cfg : VADConfig) (n : ℕ) :
    ∀ (inputs : List (ℚ × Option (List ℕ))) (st : VADState),
      (∀ f ∈ st.speech_buffer, isSpeech f = true ∧ f.length = n) →
      (∀ p ∈ inputs, ∀ ch, p.2 = some ch → ch.length = n) →
      ((∀ f ∈ (runCapture isSpeech cfg inputs st).1.speech_buffer,
          isSpeech f = true ∧ f.length = n)
       ∧ (runCapture isSpeech cfg inputs st).1.speech_buffer.Sublist
           (st.speech_buffer ++ speechChunks isSpeech inputs)
       ∧ ∀ u ∈ (runCapture isSpeech cfg inputs st).2,
           ∃ fs : List (List ℕ),
             fs.Sublist (st.speech_buffer ++ speechChunks isSpeech inputs) ∧
             u = fs.flatten ∧ (∀ f ∈ fs, isSpeech f = true ∧ f.length = n) ∧
             u.length = fs.length * n) := by
  intro inputs
  induction inputs with
  | nil =>
    intro st h1 _
    refine ⟨h1, by simp [runCapture, speechChunks], by simp [runCapture]⟩
  | cons p rest ih =>
    obtain ⟨t, ch⟩ := p
    intro st h1 h2
    have hsub1 := capture_speech_buffer_sublist true isSpeech cfg t ch st
    have hout1 := capture_speech_out_flatten true isSpeech cfg t ch st
    have h1' : ∀ f ∈ (capture_speech true isSpeech cfg t ch st).1.speech_buffer,
        isSpeech f = true ∧ f.length = n := by
      intro f hf
      rcases List.mem_append.mp (hsub1.subset hf) with hf1 | hf2
      · exact h1 f hf1
      · rcases ch with _ | c
        · simp at hf2
        · have hfc : f = c ∧ isSpeech f = true := by simpa using hf2
          refine ⟨hfc.2, ?_⟩
          rw [hfc.1]
          exact h2 (t, some c) (by simp) c rfl
    have h2' : ∀ p ∈ rest, ∀ ch2, p.2 = some ch2 → ch2.length = n :=
      fun p hp => h2 p (List.mem_cons_of_mem _ hp)
    obtain ⟨ihA, ihB, ihC⟩ :=
      ih (capture_speech true isSpeech cfg t ch st).1 h1' h2'
    have hchain :
        ((capture_speech true isSpeech cfg t ch st).1.speech_buffer ++
          speechChunks isSpeech rest).Sublist
          (st.speech_buffer ++ speechChunks isSpeech ((t, ch) :: rest)) := by
      rw [speechChunks_cons, ← List.append_assoc]
      exact hsub1.append (List.Sublist.refl _)
    refine ⟨?_, ?_, ?_⟩
    · intro f hf
      exact ihA f (by simpa [runCapture] using hf)
    · have : (runCapture isSpeech cfg ((t, ch) :: rest) st).1
          = (runCapture isSpeech cfg rest
              (capture_speech true isSpeech cfg t ch st).1).1 := by
        simp [runCapture]
      rw [this]
      exact ihB.trans hchain
    · intro u hu
      have hu' : u ∈ (capture_speech true isSpeech cfg t ch st).2.toList ++
          (runCapture isSpeech cfg rest
            (capture_speech true isSpeech cfg t ch st).1).2 := by
        simpa [runCapture] using hu
      rcases List.mem_append.mp hu' with hu1 | hu2
      · refine ⟨st.speech_buffer, ?_, hout1 u hu1, h1, ?_⟩
        · exact List.sublist_append_left _ _
        · rw [hout1 u hu1]
          exact flatten_length_const (fun f hf => (h1 f hf).2)
      · obtain ⟨fs, hfs1, hfs2, hfs3, hfs4⟩ := ihC u hu2
        exact ⟨fs, hfs1.trans hchain, hfs2, hfs3, hfs4⟩

/-- C6: a silence frame processed while an utterance is in progress never
appends to the speech buffer (the buffer is either unchanged or cleared), and
along any trace from the initial state whose chunks all have `n` bytes, every
emitted utterance is the concatenation of an in-order sublist of the trace's
speech-classified chunks — so its byte length is the number of those speech
frames times `n`. -/
theorem capture_speech_silence_never_buffered (isSpeech : List ℕ → Bool)
    (cfg : VADConfig) (n : ℕ) (inputs : List (ℚ × Option (List ℕ)))
    (t : ℚ) (c : List ℕ) (st : VADState)
    (hn : ∀ p ∈ inputs, ∀ ch, p.2 = some ch → ch.length = n)
    (hc : isSpeech c = false)
    (hprog : st.speech_start_time.isSome = true) :
    ((capture_speech true isSpeech cfg t (some c) st).1.speech_buffer
        = st.speech_buffer
      ∨ (capture_speech true isSpeech cfg t (some c) st).1.speech_buffer = [])
    ∧ ∀ u ∈ (runCapture isSpeech cfg inputs initVADState).2,
        ∃ fs : List (List ℕ),
          fs.Sublist (speechChunks isSpeech inputs) ∧ u = fs.flatten ∧
          (∀ f ∈ fs, isSpeech f = true ∧ f.length = n) ∧
          u.length = fs.length * n := by
  constructor
  · obtain ⟨s, hs⟩ := Option.isSome_iff_exists.mp hprog
    unfold capture_speech
    simp only [hc, if_false, Bool.false_eq_true, hs]
    rcases h2 : st.last_speech_time with _ | l
    · simp
    · by_cases hsil : cfg.silence_duration ≤ t - l
      · by_cases hmin : cfg.min_speech_duration ≤ l - s
        · simp [hsil, hmin]
        · simp [hsil, hmin]
      · simp [hsil]
  · have h := (runCapture_spec isSpeech cfg n inputs initVADState
      (by simp [initVADState]) hn).2.2
    intro u hu
    obtain ⟨fs, hfs1, hfs2, hfs3, hfs4⟩ := h u hu
    exact ⟨fs, by simpa [initVADState] using hfs1, hfs2, hfs3, hfs4⟩

/-- Witness for C6: a silence frame arriving mid-utterance leaves the buffer
unchanged or cleared, never appended. -/
theorem capture_speech_silence_never_buffered_witness :
    ((capture_speech true (fun f => f.any (· ≠ 0)) ⟨3/2, 1/2⟩ 9 (some [0])
        ⟨[[1, 1]], some 0, some 0⟩).1.speech_buffer = [[1, 1]] ∨
      (capture_speech true (fun f => f.any (· ≠ 0)) ⟨3/2, 1/2⟩ 9 (some [0])
        ⟨[[1, 1]], some 0, some 0⟩).1.speech_buffer = []) :=
  (capture_speech_silence_never_buffered (fun f => f.any (· ≠ 0)) ⟨3/2, 1/2⟩ 2
    [(0, some [1, 1]), (1, some [2, 2]), (3, some [0, 0])] 9 [0]
    ⟨[[1, 1]], some 0, some 0⟩
    (by intro p hp ch hch; fin_cases hp <;> (cases hch; rfl))
    (by decide) rfl).1

/-! ### Intent classifier (`src/utils/intent_classifier.py`)

Python strings are modelled as `List Char` so that `strip`, `lower`,
substring tests and equality all compute. -/

/-- Python `str.lower()`. -/
def lowerStr (s : List Char) : List Char := s.map Char.toLower

/-- Python `str.strip()`: drop whitespace from both ends. -/
def trimStr (s : List Char) : List Char :=
  ((s.dropWhile Char.isWhitespace).reverse.dropWhile Char.isWhitespace).reverse

/-- Python `pat in s` on strings: substring containment. -/
def strContains (s pat : List Char) : Bool := decide (pat <:+: s)

/-- The guard `not text or not text.strip()`. -/
def blankText (text : List Char) : Bool := text.isEmpty || (trimStr text).isEmpty

/-- The `IntentType` literal type: `"laptop_action"` or `"local_qa"`. -/
inductive Intent
  | laptop_action
  | local_qa
deriving DecidableEq

def kwLaptopAction : List Char := "laptop_action".toList

def kwLaptop : List Char := "laptop".toList

def kwLocalQa : List Char := "local_qa".toList

def kwLocal : List Char := "local".toList

def kwApplication : List Char := "application".toList

def kwApp : List Char := "app".toList

/-- The `laptop_indicators` list of the no-keyword-in-reply fallback inside
the `try` block (twelve entries, ending in `"app", "application"`). -/
def laptop_indicators : List (List Char) :=
  ["open".toList, "go to".toList, "login".toList, "text".toList,
   "message".toList, "send".toList, "click".toList, "type".toList,
   "navigate".toList, "website".toList, kwApp, kwApplication]

/-- The `laptop_indicators` list of the `except` handler (eleven entries,
without `"application"`). -/
def laptop_indicators_on_error : List (List Char) :=
  ["open".toList, "go to".toList, "login".toList, "text".toList,
   "message".toList, "send".toList, "click".toList, "type".toList,
   "navigate".toList, "website".toList, kwApp]

/-- `classify_intent(text, llm)`. The generator argument is modelled by its
observable behaviour on this call: `none` when no LLM is supplied,
`some (Except.error ())` when `llm.generate(...)` raises, and
`some (Except.ok reply)` when it returns `reply`. The `except Exception`
handler wraps the whole `try` body, so a raise lands in the
`laptop_indicators_on_error` heuristic with confidence 0.7. -/
def classify_intent (text : List Char)
    (llm : Option (Except Unit (List Char))) : Intent × ℚ :=
  if blankText text then (.local_qa, 0)
  else
    match llm with
    | none => (.local_qa, 1/2)
    | some (.ok reply) =>
      let response := lowerStr (trimStr reply)
      if strContains response kwLaptopAction || strContains response kwLaptop then
        (.laptop_action, 1)
      else if strContains response kwLocalQa || strContains response kwLocal then
        (.local_qa, 1)
      else if laptop_indicators.any (fun ind => strContains (lowerStr text) ind) then
        (.laptop_action, 4/5)
      else
        (.local_qa, 4/5)
    | some (.error _) =>
      if laptop_indicators_on_error.any (fun ind => strContains (lowerStr text) ind) then
        (.laptop_action, 7/10)
      else
        (.local_qa, 7/10)

/-- `is_laptop_action(text, llm)`:
`intent == "laptop_action" and confidence > 0.5`. -/
def is_laptop_action (text : List Char)
    (llm : Option (Except Unit (List Char))) : Bool :=
  decide ((classify_intent text llm).1 = Intent.laptop_action) &&
    decide ((1 : ℚ)/2 < (classify_intent text llm).2)

/-- Exhaustive case analysis of the classifier's result. -/
theorem classify_intent_cases (text : List Char)
    (llm : Option (Except Unit (List Char))) :
    classify_intent text llm = (Intent.local_qa, 0) ∨
    classify_intent text llm = (Intent.local_qa, 1/2) ∨
    classify_intent text llm = (Intent.laptop_action, 1) ∨
    classify_intent text llm = (Intent.local_qa, 1) ∨
    classify_intent text llm = (Intent.laptop_action, 4/5) ∨
    classify_intent text llm = (Intent.local_qa, 4/5) ∨
    classify_intent text llm = (Intent.laptop_action, 7/10) ∨
    classify_intent text llm = (Intent.local_qa, 7/10) := by
  unfold classify_intent
  by_cases hb : blankText text
  · simp [hb]
  · rcases llm with _ | r
    · simp [hb]
    · rcases r with e | rep
      · by_cases h1 : laptop_indicators_on_error.any
            (fun ind => strContains (lowerStr text) ind)
        · simp [hb, h1]
        · simp [hb, h1]
      · by_cases h1 : (strContains (lowerStr (trimStr rep)) kwLaptopAction ||
            strContains (lowerStr (trimStr rep)) kwLaptop) = true
        · simp [hb, h1]
        · by_cases h2 : (strContains (lowerStr (trimStr rep)) kwLocalQa ||
              strContains (lowerStr (trimStr rep)) kwLocal) = true
          · simp [hb, h1, h2]
          · by_cases h3 : laptop_indicators.any
                (fun ind => strContains (lowerStr text) ind)
            · simp [hb, h1, h2, h3]
            · simp [hb, h1, h2, h3]

/-- C3: for every input text and every generator behaviour (absent, raising,
or returning any reply, parseable or not), `classify_intent` returns a
well-formed decision: a kind that is `laptop_action` or `local_qa`, and a
confidence in `[0, 1]`. The model is a total function, so no code path
raises. -/
theorem classify_intent_total (text : List Char)
    (llm : Option (Except Unit (List Char))) :
    ((classify_intent text llm).1 = Intent.laptop_action ∨
      (classify_intent text llm).1 = Intent.local_qa) ∧
    0 ≤ (classify_intent text llm).2 ∧ (classify_intent text llm).2 ≤ 1 := by
  rcases classify_intent_cases text llm with h | h | h | h | h | h | h | h <;>
    rw [h] <;>
    exact ⟨by first | exact Or.inl rfl | exact Or.inr rfl,
      by norm_num, by norm_num⟩

/-- The two indicator lists differ only in `"application"`. -/
theorem laptop_indicators_split :
    laptop_indicators = laptop_indicators_on_error ++ [kwApplication] := by
  decide

/-- Any text containing `"application"` contains `"app"`, so the two
indicator lists match exactly the same texts. -/
theorem indicators_any_eq (t : List Char) :
    laptop_indicators.any (fun ind => strContains t ind)
      = laptop_indicators_on_error.any (fun ind => strContains t ind) := by
  rw [laptop_indicators_split, List.any_append]
  cases h11 : laptop_indicators_on_error.any (fun ind => strContains t ind)
  · simp only [Bool.false_or, List.any_cons, List.any_nil, Bool.or_false]
    cases h12 : strContains t kwApplication
    · rfl
    · exfalso
      have happ : kwApp <:+: t := by
        have h1 : kwApplication <:+: t := of_decide_eq_true h12
        have h2 : kwApp <:+: kwApplication := by decide
        exact h2.trans h1
      have : laptop_indicators_on_error.any (fun ind => strContains t ind) = true :=
        List.any_eq_true.mpr ⟨kwApp, by decide, decide_eq_true happ⟩
      simp [this] at h11
  · simp

/-- C4: when the generator raises, `classify_intent` falls back to the same
keyword scan as the unparseable-reply fallback — the original input text is
scanned (lowercased) for the twelve indicators, including `"application"`
(the handler's list omits `"application"`, but `"app"` subsumes it) — and
returns `(laptop_action, 0.7)` on a match and `(local_qa, 0.7)` otherwise. -/
theorem classify_intent_error_fallback (text : List Char)
    (hne : blankText text = false) :
    classify_intent text (some (Except.error ()))
      = if laptop_indicators.any (fun ind => strContains (lowerStr text) ind)
        then (Intent.laptop_action, 7/10)
        else (Intent.local_qa, 7/10) := by
  unfold classify_intent
  rw [indicators_any_eq (lowerStr text)]
  simp [hne]

/-- Witness for C4: `"open safari"` matches the keyword scan, so a raising
generator yields `(laptop_action, 0.7)`. -/
theorem classify_intent_error_fallback_witness :
    classify_intent ("open safari".toList) (some (Except.error ()))
      = (Intent.laptop_action, 7/10) := by
  rw [classify_intent_error_fallback ("open safari".toList) (by decide)]
  rw [if_pos (by decide)]

/-- C10: the classifier's confidence is always one of
`{0, 0.5, 0.7, 0.8, 1}`; every `laptop_action` decision has confidence at
least 0.7; hence `is_laptop_action` is true exactly when the decision's kind
is `laptop_action`. -/
theorem classify_intent_confidence_invariant (text : List Char)
    (llm : Option (Except Unit (List Char))) :
    ((classify_intent text llm).2 = 0 ∨ (classify_intent text llm).2 = 1/2 ∨
      (classify_intent text llm).2 = 7/10 ∨ (classify_intent text llm).2 = 4/5 ∨
      (classify_intent text llm).2 = 1) ∧
    ((classify_intent text llm).1 = Intent.laptop_action →
      7/10 ≤ (classify_intent text llm).2) ∧
    (is_laptop_action text llm = true ↔
      (classify_intent text llm).1 = Intent.laptop_action) := by
  rcases classify_intent_cases text llm with h | h | h | h | h | h | h | h <;>
    · refine ⟨?_, ?_, ?_⟩ <;>
        simp [is_laptop_action, h, decide_eq_true_eq] <;> norm_num

/-- Witness for C10: with no generator the decision is `(local_qa, 0.5)`,
and `is_laptop_action` agrees. -/
theorem classify_intent_confidence_invariant_witness :
    is_laptop_action ("what is the weather".toList) none = false := by
  have h := (classify_intent_confidence_invariant
      ("what is the weather".toList) none).2.2
  have hk : (classify_intent ("what is the weather".toList) none).1
      = Intent.local_qa := by
    unfold classify_intent
    rw [if_neg (by decide)]
  cases hv : is_laptop_action ("what is the weather".toList) none
  · rfl
  · exact absurd (hk ▸ h.mp hv) (by simp)

/-! ### Laptop client (`src/utils/laptop_client.py`) -/

/-- Decoded JSON values — the result of `response.json()` — which are also
the Python values stored in the normalized result dict (`null` stands for
Python `None`). -/
inductive Json
  | null
  | boolean (b : Bool)
  | num (n : ℤ)
  | str (s : List Char)
  | arr (xs : List Json)
  | obj (fields : List (List Char × Json))

/-- Python truthiness of a decoded JSON value (`x or ""` tests this). -/
def jsonTruthy : Json → Bool
  | .null => false
  | .boolean b => b
  | .num n => decide (n ≠ 0)
  | .str s => !s.isEmpty
  | .arr xs => !xs.isEmpty
  | .obj fs => !fs.isEmpty

/-- `data.get(key)` on a dict decoded from JSON; duplicate keys keep the last
occurrence, as Python's `json` module does. -/
def jsonGet (fields : List (List Char × Json)) (key : List Char) : Option Json :=
  List.lookup key fields.reverse

/-- Whether a decoded JSON value is an object (a Python dict, the only
decoded value with a `.get` attribute). -/
def jsonIsObj : Json → Bool
  | .obj _ => true
  | _ => false

/-- The Python exceptions `send_laptop_task` can raise. -/
inductive PyErr
  | valueError
  | attributeError
deriving DecidableEq

/-- Outcome of the single `requests.post` call: a `requests.RequestException`
with its message, or a reached backend whose body either fails to parse as
JSON (`ValueError` inside `response.json()`) or parses to a value. -/
inductive NetOutcome
  | failure (msg : List Char)
  | response (body : Except Unit Json)

/-- The normalized result dict built by `send_laptop_task`. -/
structure LaptopTaskResult where
  task_id : Json
  status : Json
  message : Json
  screenshot_url : Json

def keyTaskId : List Char := "task_id".toList

def keyStatus : List Char := "status".toList

def keyMessage : List Char := "message".toList

def keyScreenshot : List Char := "screenshot_url".toList

def statusErrorStr : List Char := "error".toList

def statusUnknownStr : List Char := "unknown".toList

def msgUnreachable : List Char := "Could not reach laptop backend: ".toList

def msgNonJson : List Char := "Laptop backend returned non-JSON response".toList

/-- `send_laptop_task(backend_cfg, task_id, user_text, ...)`. The two
`try/except` blocks catch only `requests.RequestException` around the post
and `ValueError` around `response.json()`; `data.get(...)` on a decoded
non-dict value raises `AttributeError`, which nothing catches. -/
def send_laptop_task (net : NetOutcome) (task_id : List Char)
    (user_text : List Char) : Except PyErr LaptopTaskResult :=
  if blankText user_text then .error .valueError
  else
    match net with
    | .failure msg =>
      .ok ⟨.str task_id, .str statusErrorStr,
           .str (msgUnreachable ++ msg), .null⟩
    | .response (.error _) =>
      .ok ⟨.str task_id, .str statusErrorStr, .str msgNonJson, .null⟩
    | .response (.ok data) =>
      match data with
      | .obj fields =>
        .ok ⟨(jsonGet fields keyTaskId).getD (.str task_id),
             (jsonGet fields keyStatus).getD (.str statusUnknownStr),
             (fun v => if jsonTruthy v then v else .str [])
               ((jsonGet fields keyMessage).getD .null),
             (jsonGet fields keyScreenshot).getD .null⟩
      | _ => .error .attributeError

/-- Counterexample to C2 as stated: a parseable response body that is JSON
but not an object (here the empty array) makes `send_laptop_task` raise
`AttributeError` (`data.get` on a list) instead of returning a
status-"error" result. -/
theorem send_laptop_task_nonobject_raises :
    send_laptop_task (.response (.ok (Json.arr []))) ("t1".toList)
        ("hello".toList) = .error .attributeError := by
  unfold send_laptop_task
  rw [if_neg (by decide)]

/-- C2 (amended): `send_laptop_task` raises `ValueError` exactly when
`user_text` is empty or only whitespace; for non-blank text, a network
failure or a non-JSON body is caught and returns a result with status
`"error"`, a non-empty message and no screenshot URL, and a parseable JSON
object never raises — but a parseable JSON value that is *not* an object
raises an uncaught `AttributeError`. -/
theorem send_laptop_task_error_handling (task_id user_text : List Char) :
    (blankText user_text = true →
      ∀ net, send_laptop_task net task_id user_text = .error .valueError) ∧
    (blankText user_text = false →
      (∀ msg, ∃ r, send_laptop_task (.failure msg) task_id user_text = .ok r ∧
        r.status = Json.str statusErrorStr ∧
        (∃ m, r.message = Json.str m ∧ m ≠ []) ∧
        r.screenshot_url = Json.null) ∧
      (∃ r, send_laptop_task (.response (.error ())) task_id user_text = .ok r ∧
        r.status = Json.str statusErrorStr ∧
        (∃ m, r.message = Json.str m ∧ m ≠ []) ∧
        r.screenshot_url = Json.null) ∧
      (∀ fields, ∃ r,
        send_laptop_task (.response (.ok (Json.obj fields))) task_id user_text
          = .ok r) ∧
      (∀ j, jsonIsObj j = false →
        send_laptop_task (.response (.ok j)) task_id user_text
          = .error .attributeError)) := by
  constructor
  · intro hb net
    unfold send_laptop_task
    rw [if_pos hb]
  · intro hb
    refine ⟨?_, ?_, ?_, ?_⟩
    · intro msg
      refine ⟨_, by unfold send_laptop_task; rw [if_neg (by simp [hb])], rfl,
        ⟨msgUnreachable ++ msg, rfl, ?_⟩, rfl⟩
      have : msgUnreachable ≠ [] := by decide
      simp [this]
    · refine ⟨_, by unfold send_laptop_task; rw [if_neg (by simp [hb])], rfl,
        ⟨msgNonJson, rfl, by decide⟩, rfl⟩
    · intro fields
      exact ⟨_, by unfold send_laptop_task; rw [if_neg (by simp [hb])]⟩
    · intro j hj
      unfold send_laptop_task
      rw [if_neg (by simp [hb])]
      rcases j with _ | b | n | s | xs | fs <;> first
        | rfl
        | exact absurd hj (by simp [jsonIsObj])

/-- Witness for C2 (amended): blank user text raises `ValueError` even when
the network outcome would be a failure. -/
theorem send_laptop_task_error_handling_witness :
    send_laptop_task (.failure []) ("t1".toList) [] = .error .valueError :=
  (send_laptop_task_error_handling ("t1".toList) []).1 (by decide) (.failure [])

/-- Counterexample to C7 as stated: with a response object whose `message`
field is present but falsy (`false` here), the returned message is the empty
string, not the field's value — `data.get("message") or ""` coerces every
falsy field value to `""`. -/
theorem send_laptop_task_message_falsy :
    (∃ r, send_laptop_task
        (.response (.ok (Json.obj [(keyMessage, Json.boolean false)])))
        ("t1".toList) ("hi".toList) = .ok r ∧
      r.message = Json.str [] ∧ r.message ≠ Json.boolean false) ∧
    jsonGet [(keyMessage, Json.boolean false)] keyMessage
      = some (Json.boolean false) := by
  constructor
  · refine ⟨⟨Json.str ("t1".toList), Json.str statusUnknownStr,
      Json.str [], Json.null⟩, ?_, rfl, by simp⟩
    unfold send_laptop_task
    rw [if_neg (by decide)]
    rfl
  · rfl

/-- The normalized result for an object response, written from the spec's
(amended) words: `status` is the response's `status` field or `"unknown"`
when absent; `message` is the response's `message` field when that value is
truthy and the empty string otherwise; `screenshot_url` is the field or none
when absent; `task_id` is the response's `task_id` if present, else the
request's. -/
def objectResponseSpec (task_id : List Char)
    (fields : List (List Char × Json)) : LaptopTaskResult where
  task_id :=
    match jsonGet fields keyTaskId with
    | some v => v
    | none => .str task_id
  status :=
    match jsonGet fields keyStatus with
    | some v => v
    | none => .str statusUnknownStr
  message :=
    match jsonGet fields keyMessage with
    | some v => if jsonTruthy v then v else .str []
    | none => .str []
  screenshot_url :=
    match jsonGet fields keyScreenshot with
    | some v => v
    | none => .null

/-- C7 (amended): on a parseable JSON object response, `send_laptop_task`
returns exactly the normalization described by `objectResponseSpec` — in
particular `message` is the field's value only when that value is truthy and
`""` otherwise, and the other three fields are as the claim states. -/
theorem send_laptop_task_object_normalization (task_id user_text : List Char)
    (fields : List (List Char × Json))
    (hne : blankText user_text = false) :
    send_laptop_task (.response (.ok (Json.obj fields))) task_id user_text
      = .ok (objectResponseSpec task_id fields) := by
  unfold send_laptop_task objectResponseSpec
  rw [if_neg (by simp [hne])]
  rcases h1 : jsonGet fields keyTaskId with _ | v1 <;>
    rcases h2 : jsonGet fields keyStatus with _ | v2 <;>
      rcases h3 : jsonGet fields keyMessage with _ | v3 <;>
        rcases h4 : jsonGet fields keyScreenshot with _ | v4 <;>
          simp [h1, h2, h3, h4, jsonTruthy]

/-- Witness for C7 (amended): a response carrying all four fields is passed
through, with the truthy message kept. -/
theorem send_laptop_task_object_normalization_witness :
    send_laptop_task
        (.response (.ok (Json.obj
          [(keyStatus, Json.str ("done".toList)),
           (keyMessage, Json.str ("ok".toList)),
           (keyScreenshot, Json.str ("http://m/s.png".toList)),
           (keyTaskId, Json.str ("t9".toList))])))
        ("t1".toList) ("hi".toList)
      = .ok ⟨Json.str ("t9".toList), Json.str ("done".toList),
             Json.str ("ok".toList), Json.str ("http://m/s.png".toList)⟩ := by
  have h := send_laptop_task_object_normalization ("t1".toList) ("hi".toList)
    [(keyStatus, Json.str ("done".toList)),
     (keyMessage, Json.str ("ok".toList)),
     (keyScreenshot, Json.str ("http://m/s.png".toList)),
     (keyTaskId, Json.str ("t9".toList))] (by decide)
  exact h

/-- The HTTP response seen by `download_screenshot`. -/
structure HttpResp where
  status_code : ℕ
  content : List ℕ

/-- What `download_screenshot` did: the returned local path (`none` when it
returns `None`) and the file write it performed (path and bytes). -/
structure DownloadOutcome where
  result : Option (List Char)
  written : Option (List Char × List ℕ)

/-- `url.split("/")[-1] or "screenshot.png"`. -/
def screenshot_filename (url : List Char) : List Char :=
  let f := (url.splitOn '/').getLastD []
  if f.isEmpty then "screenshot.png".toList else f

/-- `download_screenshot(url, dest_dir)`. Filesystem and network effects are
parameters: `mkdir_ok` is whether `dest_dir.mkdir(parents=True,
exist_ok=True)` succeeds (it raises `OSError` outside any `try` — e.g. when
`dest_dir` exists as a regular file), `net` is the outcome of `requests.get`,
and `write_ok` is whether `dest_path.write_bytes` succeeds.
`raise_for_status` raises `HTTPError` (a `RequestException`, so caught) for
status codes 400–599. -/
def download_screenshot (url : List Char) (dest_dir : List Char)
    (mkdir_ok : Bool) (net : Except Unit HttpResp) (write_ok : Bool) :
    Except Unit DownloadOutcome :=
  if url.isEmpty then .ok ⟨none, none⟩
  else if mkdir_ok = false then .error ()
  else
    let dest_path := dest_dir ++ ('/' :: screenshot_filename url)
    match net with
    | .error _ => .ok ⟨none, none⟩
    | .ok resp =>
      if 400 ≤ resp.status_code ∧ resp.status_code < 600 then .ok ⟨none, none⟩
      else if write_ok then .ok ⟨some dest_path, some (dest_path, resp.content)⟩
      else .ok ⟨none, none⟩

/-- Counterexample to C9 as stated: when creating the destination directory
fails (`mkdir` raises `OSError`, e.g. the destination exists as a regular
file), `download_screenshot` raises instead of returning `None` — the
`mkdir` call is outside every `try`. -/
theorem download_screenshot_mkdir_raises :
    download_screenshot ("http://h/a.png".toList) ("shots".toList) false
      (.ok ⟨200, [7]⟩) true = .error () := by
  unfold download_screenshot
  rw [if_neg (by decide)]
  rfl

/-- C9 (amended): provided the destination-directory creation succeeds,
`download_screenshot` never raises; any network error, 4xx/5xx status, or
file-write error yields `None` with nothing written; on success it writes the
response body byte-for-byte to `dest_dir/<final URL segment>` (default
`screenshot.png` when that segment is empty) and returns that path. A failing
`mkdir` raises `OSError` out of the function. -/
theorem download_screenshot_eval_ok (url dest_dir : List Char)
    (resp : HttpResp) (write_ok : Bool) (hu : url.isEmpty = false) :
    download_screenshot url dest_dir true (.ok resp) write_ok
      = if 400 ≤ resp.status_code ∧ resp.status_code < 600 then
          Except.ok ⟨none, none⟩
        else if write_ok = true then
          Except.ok ⟨some (dest_dir ++ ('/' :: screenshot_filename url)),
                     some (dest_dir ++ ('/' :: screenshot_filename url),
                           resp.content)⟩
        else Except.ok ⟨none, none⟩ := by
  unfold download_screenshot
  rw [if_neg (by simp [hu]), if_neg (by simp)]

theorem download_screenshot_eval_err (url dest_dir : List Char)
    (write_ok : Bool) (hu : url.isEmpty = false) :
    download_screenshot url dest_dir true (.error ()) write_ok
      = .ok ⟨none, none⟩ := by
  unfold download_screenshot
  rw [if_neg (by simp [hu]), if_neg (by simp)]

theorem download_screenshot_empty_url (dest_dir : List Char) (mk : Bool)
    (net : Except Unit HttpResp) (write_ok : Bool) :
    download_screenshot [] dest_dir mk net write_ok = .ok ⟨none, none⟩ := by
  rfl

/-- C9 (amended): provided the destination-directory creation succeeds,
`download_screenshot` never raises; any network error, 4xx/5xx status, or
file-write error yields `None` with nothing written; on success it writes the
response body byte-for-byte to `dest_dir/<final URL segment>` (default
`screenshot.png` when that segment is empty) and returns that path. A failing
`mkdir` raises `OSError` out of the function. -/
theorem download_screenshot_behaviour (url dest_dir : List Char)
    (net : Except Unit HttpResp) (write_ok : Bool) :
    (∃ o, download_screenshot url dest_dir true net write_ok = .ok o) ∧
    (net = .error () →
      download_screenshot url dest_dir true net write_ok = .ok ⟨none, none⟩) ∧
    (∀ resp, net = .ok resp → 400 ≤ resp.status_code → resp.status_code < 600 →
      download_screenshot url dest_dir true net write_ok = .ok ⟨none, none⟩) ∧
    (∀ resp, net = .ok resp → write_ok = false →
      download_screenshot url dest_dir true net write_ok = .ok ⟨none, none⟩) ∧
    (∀ resp, net = .ok resp → url ≠ [] →
      ¬(400 ≤ resp.status_code ∧ resp.status_code < 600) → write_ok = true →
      download_screenshot url dest_dir true net write_ok
        = .ok ⟨some (dest_dir ++ ('/' :: screenshot_filename url)),
               some (dest_dir ++ ('/' :: screenshot_filename url),
                     resp.content)⟩) := by
  refine ⟨?_, ?_, ?_, ?_, ?_⟩
  · by_cases hu : url.isEmpty
    · refine ⟨⟨none, none⟩, ?_⟩
      rw [List.isEmpty_iff.mp hu]
      exact download_screenshot_empty_url dest_dir true net write_ok
    · have hu' : url.isEmpty = false := by simpa using hu
      rcases net with _ | resp
      · exact ⟨⟨none, none⟩, download_screenshot_eval_err url dest_dir write_ok hu'⟩
      · rw [download_screenshot_eval_ok url dest_dir resp write_ok hu']
        by_cases hs : 400 ≤ resp.status_code ∧ resp.status_code < 600
        · exact ⟨⟨none, none⟩, by rw [if_pos hs]⟩
        · rcases write_ok with _ | _
          · exact ⟨⟨none, none⟩, by rw [if_neg hs]; rfl⟩
          · exact ⟨_, by rw [if_neg hs]; rfl⟩
  · rintro rfl
    by_cases hu : url.isEmpty
    · rw [List.isEmpty_iff.mp hu]
      exact download_screenshot_empty_url dest_dir true _ write_ok
    · exact download_screenshot_eval_err url dest_dir write_ok (by simpa using hu)
  · rintro resp rfl h4 h6
    by_cases hu : url.isEmpty
    · rw [List.isEmpty_iff.mp hu]
      exact download_screenshot_empty_url dest_dir true _ write_ok
    · rw [download_screenshot_eval_ok url dest_dir resp write_ok (by simpa using hu),
        if_pos (And.intro h4 h6)]
  · rintro resp rfl hw
    by_cases hu : url.isEmpty
    · rw [List.isEmpty_iff.mp hu]
      exact download_screenshot_empty_url dest_dir true _ write_ok
    · rw [download_screenshot_eval_ok url dest_dir resp write_ok (by simpa using hu)]
      by_cases hs : 400 ≤ resp.status_code ∧ resp.status_code < 600
      · rw [if_pos hs]
      · rw [if_neg hs, hw]
        rfl
  · rintro resp rfl hu hs hw
    rw [download_screenshot_eval_ok url dest_dir resp write_ok
        (by simpa using hu), if_neg hs, hw, if_pos rfl]

/-- Witness for C9 (amended): a successful 200 download writes the body to
`d/a.png` — the URL's final path segment inside the destination directory —
and returns that path. -/
theorem download_screenshot_behaviour_witness :
    download_screenshot ("http://h/shots/a.png".toList) ("d".toList) true
        (.ok ⟨200, [1, 2, 3]⟩) true
      = .ok ⟨some ("d/a.png".toList), some (("d/a.png".toList), [1, 2, 3])⟩ := by
  have h := (download_screenshot_behaviour ("http://h/shots/a.png".toList)
      ("d".toList) (.ok ⟨200, [1, 2, 3]⟩) true).2.2.2.2
      ⟨200, [1, 2, 3]⟩ rfl (by decide) (by decide) rfl
  exact h

/-! ### VAD energy (`AudioInputHandler._calculate_energy` / `_is_speech`) -/

/-- numpy int16 wrap-around: the value of `x` stored in an `int16`. -/
def wrap16 (x : ℤ) : ℤ := (x + 32768) % 65536 - 32768

/-- `np.mean(audio_data**2)` as numpy computes it on an `int16` array: each
square is taken in `int16` arithmetic (wrapping modulo 2^16), then the mean
is taken in float64 (exact here as a rational). -/
def numpyMeanSq (frame : List ℤ) : ℚ :=
  (((frame.map (fun s => wrap16 (s * s))).sum : ℤ) : ℚ) / (frame.length : ℚ)

/-- `_is_speech(frame)` = `sqrt(numpyMeanSq frame) > threshold`, with float
semantics made explicit: `np.mean` of an empty array and `np.sqrt` of a
negative mean are NaN, and `NaN > threshold` is `False`; for a non-negative
mean and threshold `t ≥ 0`, `sqrt m > t` iff `t * t < m`. -/
def vad_is_speech (frame : List ℤ) (threshold : ℚ) : Bool :=
  if frame.isEmpty then false
  else if numpyMeanSq frame < 0 then false
  else if threshold < 0 then true
  else decide (threshold * threshold < numpyMeanSq frame)

/-- Modelled from the spec: the exact mean of the true squares of the raw
int16 samples, with no wraparound. -/
def specMeanSq (frame : List ℤ) : ℚ :=
  (((frame.map (fun s => s * s)).sum : ℤ) : ℚ) / (frame.length : ℚ)

/-- Modelled from the spec: `true` iff the exact RMS
`sqrt(mean(sample^2))` exceeds the threshold (the exact mean of squares is
never negative, so no NaN case arises). -/
def spec_is_speech (frame : List ℤ) (threshold : ℚ) : Bool :=
  if frame.isEmpty then false
  else if threshold < 0 then true
  else decide (threshold * threshold < specMeanSq frame)

/-- C5 is a code bug: on the one-sample frame `[200]` with threshold 100, the
code squares in `int16`, so `200**2 = 40000` wraps to `-25536`; the mean is
negative, `np.sqrt` returns NaN, and `_is_speech` returns `False` — while the
exact RMS is `200 > 100`, so the claimed semantics returns `True`. -/
theorem vad_is_speech_wraps :
    vad_is_speech [200] 100 = false ∧ spec_is_speech [200] 100 = true ∧
    numpyMeanSq [200] = -25536 ∧ specMeanSq [200] = 40000 := by
  have hnum : numpyMeanSq [200] = -25536 := by
    unfold numpyMeanSq wrap16
    norm_num
  have hspec : specMeanSq [200] = 40000 := by
    unfold specMeanSq
    norm_num
  refine ⟨?_, ?_, hnum, hspec⟩
  · unfold vad_is_speech
    rw [if_neg (by decide), if_pos (by rw [hnum]; norm_num)]
  · unfold spec_is_speech
    rw [if_neg (by decide), if_neg (by norm_num)]
    rw [decide_eq_true_eq ]
    rw [hspec]
    norm_num

end PiAssistant
